import Mathlib

/-!
Verification development for the voice-assistant repository
(smart_speaker.py and gpt.py).

The definitions below are a shallow embedding of the program:

* Audio byte strings are `List Nat`; the thread-safe capture queue of
  `MicrophoneStream` is a `List (Option Bytes)` where `none` is the
  close sentinel enqueued by `__exit__`.
* `fill_buffer` embeds `MicrophoneStream._fill_buffer`; `generatorRun`
  embeds `MicrophoneStream.generator`, run over the successive queue
  contents ("snapshots") seen at each blocking outer `get()`.
* Wall-clock times are modelled in integer milliseconds, so the source
  constant `PAUSE_TIME = 1.5` (seconds) becomes `1500`.
* `listenLoop` embeds `listen_print_loop`; `text_message` embeds the
  mute/playback/unmute turn handler with injected failures standing for
  the exceptions the real collaborators can raise.
* `ask` embeds gpt.ask; the CSV file is the `durable` list of rows,
  `readOk = false` stands for `pd.read_csv` raising `OSError`, and the
  `backend` argument stands for `openai.ChatCompletion.create`, with
  `none` meaning the call raised.
-/

/-! ## Audio capture buffer (MicrophoneStream) -/

abbrev Bytes := List Nat

/-- PortAudio stream-callback return codes. -/
inductive PaControl
  | paContinue
  | paComplete
  | paAbort
deriving DecidableEq

/-- Embedding of `MicrophoneStream._fill_buffer`: the callback enqueues
the incoming chunk and returns `(None, pyaudio.paContinue)`; the
`status_flags` argument is never inspected. -/
def fill_buffer (buff : List (Option Bytes)) (in_data : Bytes) (status_flags : Nat) :
    List (Option Bytes) × Option Bytes × PaControl :=
  (buff ++ [some in_data], none, PaControl.paContinue)

/-- One producer push: `self._buff.put(in_data)`. -/
def pushChunk (buff : List (Option Bytes)) (c : Bytes) : List (Option Bytes) :=
  buff ++ [some c]

/-- Embedding of `MicrophoneStream.__exit__` on the (closed, queue)
state: sets `closed = True` and enqueues the `None` sentinel once. -/
def closeStream (st : Bool × List (Option Bytes)) : Bool × List (Option Bytes) :=
  (true, st.2 ++ [none])

/-- The generator's inner drain loop: starting from the chunks already
collected (`acc`, most recent first), repeatedly `get(block=False)`.
On the sentinel it returns `none` (the Python `return`, which discards
`acc`); when the queue is exhausted (`queue.Empty`) it yields the
concatenation `b"".join(data)`. -/
def drainGo : List Bytes → List (Option Bytes) → Option Bytes
  | acc, [] => some acc.reverse.flatten
  | _, none :: _ => none
  | acc, some c :: rest => drainGo (c :: acc) rest

/-- Embedding of `MicrophoneStream.generator`.  `snaps` lists the queue
contents observed at each blocking outer `self._buff.get()`; `closed`
is the flag tested by the `while not self.closed` loop.  Each iteration
takes one chunk (blocking), opportunistically drains the rest of the
snapshot, and yields the concatenated block, terminating when the
sentinel is met or the stream is closed. -/
def generatorRun (closed : Bool) : List (List (Option Bytes)) → List Bytes
  | [] => []
  | snap :: rest =>
    if closed then []
    else
      match snap with
      | [] => []
      | none :: _ => []
      | some c :: q =>
        match drainGo [c] q with
        | none => []
        | some block => block :: generatorRun closed rest

/-- The bytes carried by one queue snapshot, in FIFO order. -/
def batchBytes (s : List (Option Bytes)) : Bytes :=
  (s.filterMap id).flatten

/-! ## Transcript segmentation (listen_print_loop) -/

/-- Times in integer milliseconds. -/
abbrev Time := Int

/-- Source constant `PAUSE_TIME = 1.5` seconds, in milliseconds. -/
def PAUSE_TIME : Time := 1500

/-- Source constant `MIN_TEXT_LENGTH = 3`. -/
def MIN_TEXT_LENGTH : Nat := 3

/-- Embedding of Python `str.strip()`: remove leading and trailing
whitespace characters. -/
def pyStrip (s : String) : String :=
  String.mk (((s.data.dropWhile Char.isWhitespace).reverse.dropWhile Char.isWhitespace).reverse)

/-- Embedding of Python `str.isspace()`: non-empty and every character
is whitespace. -/
def pyIsSpace (s : String) : Bool :=
  !s.data.isEmpty && s.data.all Char.isWhitespace

/-- A word character for the regex `\b` boundary: ASCII alphanumerics,
underscore, and (covering the languages in play) Cyrillic letters. -/
def isWordChar (c : Char) : Bool :=
  c.isAlphanum || c == '_' || (0x400 ≤ c.toNat && c.toNat ≤ 0x4FF)

/-- Both ends of a candidate match sit on `\b` word boundaries. -/
def boundaryOk (prev : Option Char) (next : Option Char) : Bool :=
  (match prev with | none => true | some c => !isWordChar c) &&
  (match next with | none => true | some c => !isWordChar c)

/-- The word `w` occurs at the head of `s` as a whole word, `prev`
being the character just before this position. -/
def wordAt (w : List Char) (prev : Option Char) (s : List Char) : Bool :=
  w.isPrefixOf s && boundaryOk prev (s.drop w.length).head?

/-- Scan `s` for a whole-word occurrence of `w`. -/
def searchWord (w : List Char) : Option Char → List Char → Bool
  | prev, [] => wordAt w prev []
  | prev, c :: cs => wordAt w prev (c :: cs) || searchWord w (some c) cs

/-- Embedding of `re.search(r"\b(exit|quit)\b", transcript, re.I)`:
case-insensitive whole-word search for "exit" or "quit". -/
def hasExitQuit (s : String) : Bool :=
  searchWord ("exit".data) none (s.data.map Char.toLower) ||
    searchWord ("quit".data) none (s.data.map Char.toLower)

/-- One transcript event from the recognition backend: the raw
transcript of the top alternative, the `is_final` flag, and the wall
clock time `t` at which the event is processed (the `time.time()`
value read at line 243). -/
structure RecEvent where
  transcript : String
  is_final : Bool
  t : Time
deriving DecidableEq

/-- Embedding of the body of `listen_print_loop` (lines 228-257), run
over the event list.  The state is `last_time`; the result is the list
of transcripts handed to `text_message`, in order, paired with a flag
telling whether the loop ended via the termination-phrase `break`.
The transcript is stripped first (line 236); a final is promoted only
when the pause gate passes and then the length/whitespace gate passes
(lines 242-249), and only a promotion updates `last_time`; the
exit/quit check (line 255) runs on every event, after the final
handling, and breaks out of the loop. -/
def listenLoop : Time → List RecEvent → List String × Bool
  | _, [] => ([], false)
  | last_time, ev :: rest =>
    let transcript := pyStrip ev.transcript
    let step :=
      if ev.is_final then
        let current_time := ev.t
        if PAUSE_TIME ≤ current_time - last_time then
          if decide (MIN_TEXT_LENGTH ≤ transcript.length) && !pyIsSpace transcript then
            (current_time, some transcript)
          else (last_time, (none : Option String))
        else (last_time, none)
      else (last_time, none)
    let outs := match step.2 with | some u => [u] | none => []
    if hasExitQuit transcript then (outs, true)
    else
      let r := listenLoop step.1 rest
      (outs ++ r.1, r.2)

/-- Embedding of `listen_print_loop`: `startTime` is the `time.time()`
value stored into `last_time` when the loop starts (line 224). -/
def listen_print_loop (startTime : Time) (evs : List RecEvent) : List String × Bool :=
  listenLoop startTime evs

/-- Stated from the amended-claim wording, for comparison with
`listenLoop`: an event is promoted exactly when it is final, its
stripped length is at least `MIN_TEXT_LENGTH`, it is not
all-whitespace, and at least `PAUSE_TIME` has elapsed since the last
promoted utterance, the reference clock starting at loop start; a
termination phrase ends the session after the current event. -/
def promotedSpec (lastRef : Time) : List RecEvent → List String
  | [] => []
  | e :: es =>
    let s := pyStrip e.transcript
    if e.is_final = true ∧ MIN_TEXT_LENGTH ≤ s.length ∧ pyIsSpace s = false ∧
        PAUSE_TIME ≤ e.t - lastRef then
      s :: (if hasExitQuit s then [] else promotedSpec e.t es)
    else
      (if hasExitQuit s then [] else promotedSpec lastRef es)

/-! ## Playback arbiter (text_message) -/

/-- Which collaborator calls raise during one turn of `text_message`:
the GPT call (`ask`), speech synthesis, the output-file write, or the
pygame playback engine. -/
structure Faults where
  askFails : Bool
  synthFails : Bool
  writeFails : Bool
  playFails : Bool
deriving DecidableEq

/-- The observable mixer state threaded through a turn: the capture
("Mic" record) switch, how many times `setrec(1)` has run, and whether
`setrec(0)` ever ran. -/
structure SpeakerState where
  micEnabled : Bool
  unmuteCount : Nat
  everMuted : Bool
deriving DecidableEq

/-- Embedding of `mixer.setrec(1)`: enable capture (idempotent on the
switch itself). -/
def setrec1 (s : SpeakerState) : SpeakerState :=
  { s with micEnabled := true, unmuteCount := s.unmuteCount + 1 }

/-- Embedding of `mixer.setrec(0)`: disable capture. -/
def setrec0 (s : SpeakerState) : SpeakerState :=
  { s with micEnabled := false, everMuted := true }

/-- The inner `try ... finally mixer.setrec(1)` block of `text_message`
(lines 190-204): mute, write the synthesized audio to `OUTPUT_FILE`,
start playback and poll until done; the `finally` unmute runs whether
or not the body raised.  The Bool tells whether the body completed
without raising. -/
def playbackBlock (f : Faults) (s : SpeakerState) : SpeakerState × Bool :=
  let s1 := setrec0 s
  let ok := !(f.writeFails || f.playFails)
  (setrec1 s1, ok)

/-- Embedding of `text_message` (lines 151-212).  The outer `try`
covers the GPT call and synthesis (before any mute) and the playback
block; its `except` handler re-acquires the mixer and calls
`setrec(1)` once more. -/
def text_message (f : Faults) (s : SpeakerState) : SpeakerState :=
  if f.askFails || f.synthFails then
    setrec1 s
  else
    let r := playbackBlock f s
    if r.2 then r.1 else setrec1 r.1

/-! ## Conversation context (gpt.ask) -/

/-- One row of the history CSV (`{user_id, role, content}`). -/
structure Turn where
  user_id : Int
  role : String
  content : String
deriving DecidableEq

/-- One role-tagged message of the completion request. -/
structure Msg where
  role : String
  content : String
deriving DecidableEq

/-- Source constant `HISTORY_LENGTH = 8`. -/
def HISTORY_LENGTH : Nat := 8

/-- pandas `DataFrame.tail(n)`: the last `n` elements in order. -/
def lastN (n : Nat) (l : List α) : List α :=
  l.drop (l.length - n)

/-- The `history[history['user_id'] == user_id][['role', 'content']]`
projection: the given user's rows, in order, as messages. -/
def userRows (history : List Turn) (uid : Int) : List Msg :=
  (history.filter fun tn => tn.user_id == uid).map fun tn => ⟨tn.role, tn.content⟩

/-- The message list built at lines 86-98: the fixed system/placeholder
head followed by `tail(HISTORY_LENGTH)` of the user's rows of the
in-memory history. -/
def buildMessages (history : List Turn) (uid : Int) (roleText : String) : List Msg :=
  [⟨"system", roleText⟩, ⟨"user", ""⟩] ++ lastN HISTORY_LENGTH (userRows history uid)

/-- The observable outcome of one `ask` call: the returned text
(`none` when the backend call raised and the exception propagated),
the CSV content after the call, the request message list, the CSV
content at the moment the backend request was issued, and how many
`to_csv` writes ran. -/
structure AskOutcome where
  reply : Option String
  durable : List Turn
  messages : List Msg
  storeAtRequest : List Turn
  writes : Nat
deriving DecidableEq

/-- Embedding of `gpt.ask` (lines 36-120).  `durable` is the CSV
content; `readOk = false` stands for `pd.read_csv` raising `OSError`,
giving the empty-history fallback (lines 63-66); the user turn is
appended in memory (lines 76-83), the request built (lines 86-98) and
issued; on backend failure the exception propagates before any
`to_csv`; on success the assistant turn is appended and the whole
history written once (lines 108-118). -/
def ask (durable : List Turn) (readOk : Bool) (uid : Int) (text roleText : String)
    (backend : List Msg → Option String) : AskOutcome :=
  let history := if readOk then durable else []
  let history1 := history ++ [⟨uid, "user", text⟩]
  let messages := buildMessages history1 uid roleText
  match backend messages with
  | none => ⟨none, durable, messages, durable, 0⟩
  | some r => ⟨some r, history1 ++ [⟨uid, "assistant", r⟩], messages, durable, 1⟩

/-! ## Concrete data used by scenarios, counterexamples and witnesses -/

/-- A 10-byte audio chunk. -/
def tenBytes : Bytes := List.replicate 10 0

/-- The C2/C10 scenario events: two finals in quick succession after
loop start, then a third 1.5 s later (times in milliseconds). -/
def c2Events : List RecEvent :=
  [⟨"привет", true, 0⟩, ⟨"привет", true, 500⟩, ⟨"как дела", true, 2000⟩]

/-- A completion backend that always answers "ok". -/
def okBackend : List Msg → Option String := fun _ => some "ok"

/-- A completion backend whose call always raises. -/
def failBackend : List Msg → Option String := fun _ => none

/-- Eight stored turns for user 111: a history already filling the
window. -/
def c4Store : List Turn :=
  [⟨111, "user", "t1"⟩, ⟨111, "assistant", "t2"⟩, ⟨111, "user", "t3"⟩,
   ⟨111, "assistant", "t4"⟩, ⟨111, "user", "t5"⟩, ⟨111, "assistant", "t6"⟩,
   ⟨111, "user", "t7"⟩, ⟨111, "assistant", "t8"⟩]

/-! ## Theorems -/

theorem drainGo_of_mem_none (acc : List Bytes) (q : List (Option Bytes)) (h : none ∈ q) :
    drainGo acc q = none := by
  induction q generalizing acc with
  | nil => cases h
  | cons o rest ih =>
    cases o with
    | none => rfl
    | some c =>
      have h2 : none ∈ rest := by simpa using h
      exact ih (c :: acc) h2

theorem drainGo_of_not_mem_none (acc : List Bytes) (q : List (Option Bytes)) (h : none ∉ q) :
    drainGo acc q = some ((acc.reverse ++ q.filterMap id).flatten) := by
  induction q generalizing acc with
  | nil => simp [drainGo]
  | cons o rest ih =>
    cases o with
    | none => exact absurd (List.mem_cons_self _ _) h
    | some c =>
      have h2 : none ∉ rest := fun hm => h (List.mem_cons_of_mem _ hm)
      have : drainGo acc (some c :: rest) = drainGo (c :: acc) rest := rfl
      rw [this, ih (c :: acc) h2]
      simp [List.filterMap_cons]

theorem batchBytes_append (a b : List (Option Bytes)) :
    batchBytes (a ++ b) = batchBytes a ++ batchBytes b := by
  simp [batchBytes, List.filterMap_append]

theorem flatten_map_batchBytes (ss : List (List (Option Bytes))) :
    (ss.map batchBytes).flatten = batchBytes ss.flatten := by
  induction ss with
  | nil => simp [batchBytes]
  | cons s ss ih => simp [batchBytes_append, ih]

/-- C1 counterexample: after pushing three 10-byte chunks and closing
(the sentinel enqueued once), the consumer yields no block at all and
terminates, whichever schedule applies (the closed flag already set,
or the consumer mid-wait so that the sentinel is met in the drain
loop) — not one 30-byte block as claimed. -/
theorem c1_counterexample :
    (closeStream (false, pushChunk (pushChunk (pushChunk [] tenBytes) tenBytes) tenBytes)).1
        = true ∧
    generatorRun true
      [(closeStream (false, pushChunk (pushChunk (pushChunk [] tenBytes) tenBytes) tenBytes)).2]
        = [] ∧
    generatorRun false
      [(closeStream (false, pushChunk (pushChunk (pushChunk [] tenBytes) tenBytes) tenBytes)).2]
        = [] ∧
    ([] : List Bytes) ≠ [List.replicate 30 0] := by
  decide

/-- C1 (amended): the consumer yields exactly the concatenated batches
drained strictly before the batch in which the close sentinel appears,
in FIFO order with no chunk reordered, duplicated or dropped, and then
terminates (events after the sentinel batch are never consumed); every
chunk sharing a batch with the sentinel is discarded, so a close that
is already enqueued when draining starts loses the pending chunks. -/
theorem c1_generator_fifo (snaps : List (List (Option Bytes))) (b : List (Option Bytes))
    (tl : List (List (Option Bytes)))
    (h : ∀ s ∈ snaps, none ∉ s ∧ s ≠ []) (hb : none ∈ b) :
    generatorRun false (snaps ++ b :: tl) = snaps.map batchBytes ∧
    (generatorRun false (snaps ++ b :: tl)).flatten = batchBytes snaps.flatten := by
  have main : generatorRun false (snaps ++ b :: tl) = snaps.map batchBytes := by
    induction snaps with
    | nil =>
      simp only [List.nil_append, List.map_nil]
      cases b with
      | nil => cases hb
      | cons o q =>
        cases o with
        | none => rfl
        | some c =>
          have h2 : none ∈ q := by simpa using hb
          simp [generatorRun, drainGo_of_mem_none _ _ h2]
    | cons s ss ih =>
      obtain ⟨hs, hne⟩ := h s (List.mem_cons_self _ _)
      cases s with
      | nil => exact absurd rfl hne
      | cons o q =>
        cases o with
        | none => exact absurd (List.mem_cons_self _ _) hs
        | some c =>
          have hq : none ∉ q := fun hm => hs (List.mem_cons_of_mem _ hm)
          have ih2 := ih fun s hm => h s (List.mem_cons_of_mem _ hm)
          simp [generatorRun, drainGo_of_not_mem_none _ _ hq, ih2, batchBytes,
            List.filterMap_cons]
  exact ⟨main, by rw [main, flatten_map_batchBytes]⟩

/-- Witness for `c1_generator_fifo` at a concrete run: two sentinel-free
batches are yielded, the batch holding the sentinel and everything
after it are dropped. -/
theorem c1_generator_fifo_witness :
    generatorRun false ([[some [1, 2]], [some [3], some [4]]] ++ [some [5], none] :: [[some [6]]])
      = [[some ([1, 2] : Bytes)], [some [3], some [4]]].map batchBytes :=
  (c1_generator_fifo [[some [1, 2]], [some [3], some [4]]] [some [5], none] [[some [6]]]
    (by decide) (by decide)).1

/-- C2 counterexample: with the listening loop started at time 0, the
finals "привет" at 0 ms and at 500 ms are both suppressed (the pause
timer starts at loop start, so fewer than 1500 ms have elapsed) and
only "как дела" at 2000 ms is promoted — one utterance, not the two
the claim predicts. -/
theorem c2_counterexample :
    (listen_print_loop 0 c2Events).1 = ["как дела"] ∧
    (listen_print_loop 0 c2Events).1.length ≠ 2 := by
  decide

theorem listenLoop_eq_promotedSpec :
    ∀ (lt : Time) (evs : List RecEvent), (listenLoop lt evs).1 = promotedSpec lt evs := by
  intro lt evs
  induction evs generalizing lt with
  | nil => rfl
  | cons e es ih =>
    by_cases he : hasExitQuit (pyStrip e.transcript) = true <;>
    by_cases hf : e.is_final = true <;>
    by_cases hp : PAUSE_TIME ≤ e.t - lt <;>
    by_cases hlen : MIN_TEXT_LENGTH ≤ (pyStrip e.transcript).length <;>
    by_cases hsp : pyIsSpace (pyStrip e.transcript) = true <;>
    simp [listenLoop, promotedSpec, he, hf, hp, hlen, hsp, ih]

/-- C2 (amended): a transcript event is promoted to an actionable
utterance exactly when it is final, its stripped length is at least
`MIN_TEXT_LENGTH`, it is not all-whitespace, and at least `PAUSE_TIME`
has elapsed since the last promoted utterance — where the reference
clock is initialized to the time the listening loop starts, so finals
arriving within `PAUSE_TIME` of loop start are also suppressed; on the
scenario the loop therefore produces exactly one utterance,
"как дела", not two. -/
theorem c2_promotion_characterization :
    (∀ (lastRef : Time) (evs : List RecEvent),
      (listenLoop lastRef evs).1 = promotedSpec lastRef evs) ∧
    (listen_print_loop 0 c2Events).1 = ["как дела"] :=
  ⟨listenLoop_eq_promotedSpec, by decide⟩

theorem listenLoop_break_after (pre : List RecEvent) :
    ∀ (lt : Time) (e : RecEvent) (rest : List RecEvent),
      (∀ ev ∈ pre, hasExitQuit (pyStrip ev.transcript) = false) →
      hasExitQuit (pyStrip e.transcript) = true →
      listenLoop lt (pre ++ e :: rest) = listenLoop lt (pre ++ [e]) ∧
      (listenLoop lt (pre ++ e :: rest)).2 = true := by
  induction pre with
  | nil =>
    intro lt e rest _ he
    constructor <;> simp [listenLoop, he]
  | cons p ps ih =>
    intro lt e rest hpre he
    have hp := hpre p (List.mem_cons_self _ _)
    have hps : ∀ ev ∈ ps, hasExitQuit (pyStrip ev.transcript) = false :=
      fun ev hm => hpre ev (List.mem_cons_of_mem _ hm)
    have h1 : ∀ t : Time, listenLoop t (ps ++ e :: rest) = listenLoop t (ps ++ [e]) :=
      fun t => (ih t e rest hps he).1
    have h2 : ∀ t : Time, (listenLoop t (ps ++ e :: rest)).2 = true :=
      fun t => (ih t e rest hps he).2
    constructor
    · simp [listenLoop, hp, h1]
    · simp [listenLoop, hp, h2]

/-- C5: on any event whose (stripped) transcript contains a
case-insensitive whole-word "exit" or "quit" — final or partial, and
regardless of the pause/length promotion gate — the loop finishes
processing that event (a promotion it causes is still emitted) and
then terminates: the remaining events are never consumed and the
break flag is set. -/
theorem c5_exit_terminates (last_time : Time) (pre : List RecEvent) (e : RecEvent)
    (rest : List RecEvent)
    (hpre : ∀ ev ∈ pre, hasExitQuit (pyStrip ev.transcript) = false)
    (he : hasExitQuit (pyStrip e.transcript) = true) :
    listen_print_loop last_time (pre ++ e :: rest) = listen_print_loop last_time (pre ++ [e]) ∧
    (listen_print_loop last_time (pre ++ e :: rest)).2 = true :=
  listenLoop_break_after pre last_time e rest hpre he

/-- Witness for `c5_exit_terminates`: the partial transcript
"пока, exit" ends the session even though it is not final, and a
later valid final is never processed. -/
theorem c5_exit_terminates_witness :
    listen_print_loop 0
        ([⟨"привет", false, 0⟩] ++ (⟨"пока, exit", false, 100⟩ : RecEvent) ::
          [⟨"как дела", true, 5000⟩])
      = listen_print_loop 0 ([⟨"привет", false, 0⟩] ++ [⟨"пока, exit", false, 100⟩]) ∧
    (listen_print_loop 0
        ([⟨"привет", false, 0⟩] ++ (⟨"пока, exit", false, 100⟩ : RecEvent) ::
          [⟨"как дела", true, 5000⟩])).2 = true :=
  c5_exit_terminates 0 [⟨"привет", false, 0⟩] ⟨"пока, exit", false, 100⟩
    [⟨"как дела", true, 5000⟩] (by decide) (by decide)

/-- C10: `last_time` is initialized to the time the listening loop
starts, so a first final arriving within `PAUSE_TIME` of loop start is
discarded — even though nothing has been promoted yet and the event
passes the length and non-whitespace gates — and the loop state is as
if the event had not occurred. -/
theorem c10_first_final_discarded (startTime : Time) (e : RecEvent) (rest : List RecEvent)
    (h1 : e.is_final = true) (h2 : MIN_TEXT_LENGTH ≤ (pyStrip e.transcript).length)
    (h3 : pyIsSpace (pyStrip e.transcript) = false)
    (h4 : e.t - startTime < PAUSE_TIME)
    (h5 : hasExitQuit (pyStrip e.transcript) = false) :
    listen_print_loop startTime (e :: rest) = listen_print_loop startTime rest := by
  have hp : ¬ PAUSE_TIME ≤ e.t - startTime := not_le.mpr h4
  simp [listen_print_loop, listenLoop, h1, h5, hp]

/-- Witness for `c10_first_final_discarded`: a valid 6-letter final at
1000 ms after loop start is dropped. -/
theorem c10_first_final_discarded_witness :
    listen_print_loop 0 ((⟨"привет", true, 1000⟩ : RecEvent) :: [⟨"как дела", true, 2000⟩])
      = listen_print_loop 0 [⟨"как дела", true, 2000⟩] :=
  c10_first_final_discarded 0 ⟨"привет", true, 1000⟩ [⟨"как дела", true, 2000⟩]
    (by decide) (by decide) (by decide) (by decide) (by decide)

/-- C3: for every combination of turn outcomes (normal completion, GPT
failure, synthesis failure, file-write failure, playback-engine
failure) and every starting mixer state, capture is enabled when
`text_message` returns, the unmute step ran at least once, and on the
write-failure path the unmute runs twice (the `finally` unmute plus
the outer handler's unmute) with the double-unmute tolerated
idempotently. -/
theorem c3_unmute_on_every_path (f : Faults) (s : SpeakerState) :
    (text_message f s).micEnabled = true ∧
    1 ≤ (text_message f s).unmuteCount ∧
    (text_message ⟨false, false, true, false⟩ s).unmuteCount = s.unmuteCount + 2 := by
  obtain ⟨a, b, c, d⟩ := f
  cases a <;> cases b <;> cases c <;> cases d <;>
    simp [text_message, playbackBlock, setrec0, setrec1]

theorem ask_messages_eq (durable : List Turn) (readOk : Bool) (uid : Int)
    (text roleText : String) (backend : List Msg → Option String) :
    (ask durable readOk uid text roleText backend).messages =
      buildMessages ((if readOk then durable else []) ++ [⟨uid, "user", text⟩]) uid roleText := by
  simp only [ask]
  cases backend
      (buildMessages ((if readOk then durable else []) ++ [⟨uid, "user", text⟩]) uid roleText) <;>
    rfl

/-- C4 counterexample: with exactly `HISTORY_LENGTH` stored turns for
the user (H = N = 8), the request is not the fixed head followed by
the most recent 8 stored turns: the current user turn is appended in
memory before the window is taken, so the oldest stored turn "t1" is
pushed out of the window even though H ≤ N, while the current text
enters it. -/
theorem c4_counterexample :
    (ask c4Store true 111 "hi" "r" okBackend).messages ≠
      [Msg.mk "system" "r", Msg.mk "user" ""] ++ lastN HISTORY_LENGTH (userRows c4Store 111) ∧
    Msg.mk "user" "t1" ∉ (ask c4Store true 111 "hi" "r" okBackend).messages ∧
    Msg.mk "user" "t1" ∈ lastN HISTORY_LENGTH (userRows c4Store 111) ∧
    Msg.mk "user" "hi" ∈ (ask c4Store true 111 "hi" "r" okBackend).messages := by
  decide

/-- C4 (amended): the request equals the fixed system/placeholder head
followed by the most recent `HISTORY_LENGTH` rows of the user's
history after the current user turn has been appended, in original
chronological order; whenever the post-append row count is at most 8
the whole of it appears, and when it exceeds 8 exactly the most recent
8 rows appear (a suffix, so order is preserved). -/
theorem c4_window (durable : List Turn) (readOk : Bool) (uid : Int) (text roleText : String)
    (backend : List Msg → Option String) :
    (ask durable readOk uid text roleText backend).messages =
      [Msg.mk "system" roleText, Msg.mk "user" ""] ++
        lastN HISTORY_LENGTH
          (userRows ((if readOk then durable else []) ++ [⟨uid, "user", text⟩]) uid) ∧
    (∀ l : List Msg, l.length ≤ HISTORY_LENGTH → lastN HISTORY_LENGTH l = l) ∧
    (∀ l : List Msg, HISTORY_LENGTH < l.length →
      (lastN HISTORY_LENGTH l).length = HISTORY_LENGTH ∧
        List.IsSuffix (lastN HISTORY_LENGTH l) l) := by
  refine ⟨by rw [ask_messages_eq]; rfl, ?_, ?_⟩
  · intro l hl
    simp [lastN, Nat.sub_eq_zero_of_le hl]
  · intro l hl
    refine ⟨?_, List.drop_suffix _ _⟩
    simp only [lastN, List.length_drop]
    omega

/-- Witness for `c4_window`: the concrete 8-turn store, and a window
that keeps a short row list whole. -/
theorem c4_window_witness :
    (ask c4Store true 111 "hi" "r" okBackend).messages =
      [Msg.mk "system" "r", Msg.mk "user" ""] ++
        lastN HISTORY_LENGTH (userRows (c4Store ++ [⟨111, "user", "hi"⟩]) 111) ∧
    lastN HISTORY_LENGTH [Msg.mk "user" "a"] = [Msg.mk "user" "a"] := by
  have h := c4_window c4Store true 111 "hi" "r" okBackend
  exact ⟨by simpa using h.1, h.2.1 [Msg.mk "user" "a"] (by decide)⟩

/-- C6 counterexample: the store seen at the moment the backend request
is issued is the unchanged pre-call store — the user turn has not been
persisted before the request — and the single write of the turn
happens only afterwards. -/
theorem c6_counterexample :
    (ask [] true 111 "hi" "r" okBackend).storeAtRequest = [] ∧
    Turn.mk 111 "user" "hi" ∉ (ask [] true 111 "hi" "r" okBackend).storeAtRequest ∧
    (ask [] true 111 "hi" "r" okBackend).writes = 1 ∧
    Turn.mk 111 "user" "hi" ∈ (ask [] true 111 "hi" "r" okBackend).durable := by
  decide

/-- C6 (amended): the history is persisted exactly once per successful
turn, after the backend response, writing the user and assistant turns
together; nothing is written before the request is issued (the store
at request time is the pre-call store), and a failed backend call
writes nothing. -/
theorem c6_persist_once_after_response (durable : List Turn) (readOk : Bool) (uid : Int)
    (text roleText : String) (backend : List Msg → Option String) :
    (ask durable readOk uid text roleText backend).storeAtRequest = durable ∧
    (∀ r, backend (ask durable readOk uid text roleText backend).messages = some r →
      (ask durable readOk uid text roleText backend).writes = 1 ∧
      (ask durable readOk uid text roleText backend).durable =
        ((if readOk then durable else []) ++ [⟨uid, "user", text⟩]) ++
          [⟨uid, "assistant", r⟩]) ∧
    (backend (ask durable readOk uid text roleText backend).messages = none →
      (ask durable readOk uid text roleText backend).writes = 0) := by
  have hm := ask_messages_eq durable readOk uid text roleText backend
  rcases hb : backend
      (buildMessages ((if readOk then durable else []) ++ [⟨uid, "user", text⟩]) uid roleText)
    with _ | r0
  · refine ⟨by simp [ask, hb], ?_, fun _ => by simp [ask, hb]⟩
    intro r hr
    rw [hm, hb] at hr
    cases hr
  · refine ⟨by simp [ask, hb], ?_, ?_⟩
    · intro r hr
      rw [hm, hb] at hr
      obtain rfl : r0 = r := by injection hr
      constructor <;> simp [ask, hb]
    · intro hr
      rw [hm, hb] at hr
      cases hr

/-- Witness for `c6_persist_once_after_response` at a concrete store
and a succeeding backend. -/
theorem c6_persist_once_after_response_witness :
    (ask [Turn.mk 111 "user" "x"] true 111 "hi" "r" okBackend).storeAtRequest
        = [Turn.mk 111 "user" "x"] ∧
    (ask [Turn.mk 111 "user" "x"] true 111 "hi" "r" okBackend).writes = 1 := by
  have h := c6_persist_once_after_response [Turn.mk 111 "user" "x"] true 111 "hi" "r" okBackend
  exact ⟨h.1, (h.2.1 "ok" rfl).1⟩

/-- C7: when the history store cannot be read (`pd.read_csv` raising
`OSError`, modelled by `readOk = false`), the turn proceeds with an
empty history instead of failing: the reply, the issued request and
the number of writes are exactly those of the same turn run against an
empty, readable store. -/
theorem c7_read_failure_fallback (durable : List Turn) (uid : Int) (text roleText : String)
    (backend : List Msg → Option String) :
    (ask durable false uid text roleText backend).reply
        = (ask [] true uid text roleText backend).reply ∧
    (ask durable false uid text roleText backend).messages
        = (ask [] true uid text roleText backend).messages ∧
    (ask durable false uid text roleText backend).writes
        = (ask [] true uid text roleText backend).writes := by
  rcases hb : backend (buildMessages [⟨uid, "user", text⟩] uid roleText) with _ | r <;>
    refine ⟨?_, ?_, ?_⟩ <;> simp [ask, hb]

/-- C8 counterexample: on an invocation whose status flags signal an
error (flag value 2, an overflow), the callback still enqueues the
chunk and returns `paContinue`: the stream is not treated as ended (no
sentinel enqueued, control code neither `paComplete` nor `paAbort`)
and nothing records the error. -/
theorem c8_counterexample :
    (fill_buffer [] [7] 2).2.2 = PaControl.paContinue ∧
    PaControl.paContinue ≠ PaControl.paComplete ∧
    PaControl.paContinue ≠ PaControl.paAbort ∧
    none ∉ (fill_buffer [] [7] 2).1 ∧
    (fill_buffer [] [7] 2).1 = [some [7]] := by
  decide

/-- C8 (amended): the capture callback is total and ignores its status
flags: on every invocation — error status included — it enqueues the
chunk and returns the valid control code `paContinue` to the audio
subsystem, never propagating an exception; consequently an error
status is neither logged nor treated as end of stream. -/
theorem c8_callback_total (buff : List (Option Bytes)) (in_data : Bytes)
    (status_flags other_flags : Nat) :
    fill_buffer buff in_data status_flags
        = (buff ++ [some in_data], none, PaControl.paContinue) ∧
    fill_buffer buff in_data status_flags = fill_buffer buff in_data other_flags :=
  ⟨rfl, rfl⟩

/-- C9: if the completion-backend call raises, `ask` propagates the
failure and the persisted history is unchanged: neither the user turn
nor an assistant turn is written, because the single `to_csv` write
happens only after a successful response. -/
theorem c9_no_write_on_backend_failure (durable : List Turn) (readOk : Bool) (uid : Int)
    (text roleText : String) (backend : List Msg → Option String)
    (h : backend (ask durable readOk uid text roleText backend).messages = none) :
    (ask durable readOk uid text roleText backend).reply = none ∧
    (ask durable readOk uid text roleText backend).durable = durable ∧
    (ask durable readOk uid text roleText backend).writes = 0 := by
  rw [ask_messages_eq] at h
  refine ⟨?_, ?_, ?_⟩ <;> simp [ask, h]

/-- Witness for `c9_no_write_on_backend_failure`: a failing backend
leaves the one-row store exactly as it was. -/
theorem c9_no_write_on_backend_failure_witness :
    (ask [Turn.mk 111 "user" "x"] true 111 "hi" "r" failBackend).reply = none ∧
    (ask [Turn.mk 111 "user" "x"] true 111 "hi" "r" failBackend).durable
        = [Turn.mk 111 "user" "x"] ∧
    (ask [Turn.mk 111 "user" "x"] true 111 "hi" "r" failBackend).writes = 0 :=
  c9_no_write_on_backend_failure [Turn.mk 111 "user" "x"] true 111 "hi" "r" failBackend rfl
